import Mathlib

/-
  Verification of the payroll-tax-calculator core against its specification.

  The development shallowly embeds the three core components:
  * the expression sandbox (`safe_eval.py`): the expression AST, the
    whitelist validator, environment construction and evaluation;
  * the rule compiler and registry (`rules.py`, `loader.py`);
  * the payroll engine (`engine.py`): `run` and `get_flags`.

  Modelling conventions:
  * Python numbers are embedded exactly: `int` as `ℤ`, `float` as `ℚ`
    (floating point idealised as exact rationals; no claim below depends
    on rounding of binary floats).
  * Python exceptions are modelled with `Except`: each fallible operation
    returns `Except PyErr _`, and the distinct Python exception classes
    (`SafeEvalError`, `NameError`, `TypeError`, ...) are distinct
    constructors of `PyErr`.
  * Parsing of formula source text into an AST is not modelled; a formula
    string is represented by its parse tree (`PyExpr`).  Results produced
    by `math.sqrt` / `**` that are irrational are not representable as
    rationals; the evaluator reports those cases as `PyErr.floatApprox`
    (no claim depends on them).
-/

namespace Payroll

/-! ## Values (`safe_eval.py` runtime values) -/

/-- Runtime values flowing through the sandboxed evaluator: Python ints,
floats, bools, strings, `None`, lists, dicts (string keyed, as produced by
the JSON loader), `SimpleNamespace` objects produced by `_to_namespace`,
and the whitelisted builtin functions. -/
inductive PyVal where
  | int (z : ℤ)
  | float (q : ℚ)
  | bool (b : Bool)
  | str (s : String)
  | noneV
  | list (xs : List PyVal)
  | dict (kvs : List (String × PyVal))
  | ns (fields : List (String × PyVal))
  | builtin (name : String)

/-- Python exception kinds that the modelled code can raise.
`safeEvalError` models the repository's `SafeEvalError` (the spec's
`SandboxError`); the others model the corresponding Python builtins.
`floatApprox` marks evaluations whose exact value is irrational and hence
not representable in the exact-rational model (`sqrt`, fractional powers);
`unsupported` marks constructs that `_Validator` always rejects, so they
can never be reached through `compile_safe_expr`. -/
inductive PyErr where
  | safeEvalError (msg : String)
  | nameError (n : String)
  | typeError (msg : String)
  | attributeError (a : String)
  | keyError (k : String)
  | indexError
  | valueError (msg : String)
  | zeroDivisionError
  | floatApprox (msg : String)
  | unsupported (msg : String)
deriving DecidableEq

/-! ## Expression AST (`ast` nodes reachable from `ast.parse(expr, mode="eval")`) -/

/-- Literal constants (`ast.Constant`). -/
inductive PyConst where
  | int (z : ℤ)
  | float (q : ℚ)
  | bool (b : Bool)
  | str (s : String)
  | noneC
deriving DecidableEq

/-- Binary operator nodes.  `add`..`pow` are members of `_ALLOWED_NODES`;
the bitwise/shift/matrix operators exist in Python's grammar but are not
whitelisted. -/
inductive BinK where
  | add | sub | mult | div | floorDiv | mod | pow
  | bitAnd | bitOr | bitXor | lshift | rshift | matMult
deriving DecidableEq

/-- Unary operator nodes; `_ALLOWED_UNARY_OPS = (UAdd, USub, Not)`,
`invert` (`~`) is Python's fourth unary operator and is not allowed. -/
inductive UnK where
  | uadd | usub | notOp | invert
deriving DecidableEq

/-- Boolean operator nodes (`And`/`Or`), both whitelisted. -/
inductive BoolK where
  | andOp | orOp
deriving DecidableEq

/-- Comparison operator nodes.  `eq`..`ge` are whitelisted; identity and
membership tests (`is`, `is not`, `in`, `not in`) are not. -/
inductive CmpK where
  | eq | ne | lt | le | gt | ge
  | isOp | isNot | inOp | notIn
deriving DecidableEq

/-- Python expression trees, mirroring the `ast` node shapes:
`boolop` carries the full operand list of a chained `and`/`or`,
`compare` carries a chained comparison (`left`, operator list, comparator
list), `call` carries positional arguments.  `ifExp`, `lam`, `listComp`,
`listDisplay` and `dictDisplay` are representative syntactic forms whose
node types are outside `_ALLOWED_NODES`. -/
inductive PyExpr where
  | const (v : PyConst)
  | name (id : String)
  | binop (op : BinK) (l r : PyExpr)
  | unaryop (op : UnK) (e : PyExpr)
  | boolop (op : BoolK) (vs : List PyExpr)
  | compare (l : PyExpr) (ops : List CmpK) (rs : List PyExpr)
  | call (f : PyExpr) (args : List PyExpr)
  | attribute (v : PyExpr) (attr : String)
  | subscript (v : PyExpr) (idx : PyExpr)
  | ifExp (c t e : PyExpr)
  | lam (body : PyExpr)
  | listComp (elt : PyExpr) (iter : PyExpr)
  | listDisplay (elts : List PyExpr)
  | dictDisplay (kvs : List (PyExpr × PyExpr))

/-! ## The validator (`safe_eval.py`, class `_Validator`) -/

/-- Models `node.attr.startswith("_")`. -/
def headUnderscore (s : String) : Bool :=
  match s.data with
  | [] => false
  | c :: _ => c = '_'

/-- Whether a binary operator node belongs to `_ALLOWED_NODES`. -/
def binKAllowed : BinK → Bool
  | .add | .sub | .mult | .div | .floorDiv | .mod | .pow => true
  | _ => false

/-- Whether a unary operator node belongs to `_ALLOWED_UNARY_OPS`. -/
def unKAllowed : UnK → Bool
  | .uadd | .usub | .notOp => true
  | .invert => false

/-- Whether a comparison operator node belongs to `_ALLOWED_NODES`. -/
def cmpKAllowed : CmpK → Bool
  | .eq | .ne | .lt | .le | .gt | .ge => true
  | _ => false

/-- Display name of a binary operator node (for error messages). -/
def binKName : BinK → String
  | .add => "Add" | .sub => "Sub" | .mult => "Mult" | .div => "Div"
  | .floorDiv => "FloorDiv" | .mod => "Mod" | .pow => "Pow"
  | .bitAnd => "BitAnd" | .bitOr => "BitOr" | .bitXor => "BitXor"
  | .lshift => "LShift" | .rshift => "RShift" | .matMult => "MatMult"

/-- Display name of a comparison operator node (for error messages). -/
def cmpKName : CmpK → String
  | .eq => "Eq" | .ne => "NotEq" | .lt => "Lt" | .le => "LtE"
  | .gt => "Gt" | .ge => "GtE" | .isOp => "Is" | .isNot => "IsNot"
  | .inOp => "In" | .notIn => "NotIn"

mutual

/-- Models `_Validator().visit(tree)`: a preorder walk that raises
`SafeEvalError` (here: returns `.error msg`) at the first offending node.
Per `generic_visit`, a node whose type is outside `_ALLOWED_NODES` is
rejected; per `visit_UnaryOp`, a unary operator outside
`_ALLOWED_UNARY_OPS` is rejected; per `visit_Attribute`, an attribute
whose name starts with `_` is rejected.  Children are visited in Python's
`_fields` order (e.g. `BinOp`: left, op, right). -/
def validate : PyExpr → Except String Unit
  | .const _ => .ok ()
  | .name _ => .ok ()
  | .binop op l r => do
      validate l
      if binKAllowed op then validate r
      else .error ("Disallowed expression node: " ++ binKName op)
  | .unaryop op e =>
      if unKAllowed op then validate e
      else .error "Disallowed unary operator"
  | .boolop _ vs => validateList vs
  | .compare l ops rs => do
      validate l
      match ops.find? (fun o => ! cmpKAllowed o) with
      | some o => .error ("Disallowed expression node: " ++ cmpKName o)
      | none => validateList rs
  | .call f args => do
      validate f
      validateList args
  | .attribute v attr =>
      if headUnderscore attr then .error "Access to private attributes is forbidden"
      else validate v
  | .subscript v idx => do
      validate v
      validate idx
  | .ifExp _ _ _ => .error "Disallowed expression node: IfExp"
  | .lam _ => .error "Disallowed expression node: Lambda"
  | .listComp _ _ => .error "Disallowed expression node: ListComp"
  | .listDisplay _ => .error "Disallowed expression node: List"
  | .dictDisplay _ => .error "Disallowed expression node: Dict"

/-- Visit a list of child nodes in order, stopping at the first error. -/
def validateList : List PyExpr → Except String Unit
  | [] => .ok ()
  | e :: es => do
      validate e
      validateList es

end

/-! ### Claim-side characterisations of the validator -/

mutual

/-- Spec-side description of the whitelist (written from the spec's
grammar for claim C5, amended to match `_ALLOWED_NODES`): every node of
the tree is a whitelisted node kind, every operator is whitelisted, and
every attribute access uses a non-underscore name. -/
def whitelistedTree : PyExpr → Bool
  | .const _ => true
  | .name _ => true
  | .binop op l r => binKAllowed op && whitelistedTree l && whitelistedTree r
  | .unaryop op e => unKAllowed op && whitelistedTree e
  | .boolop _ vs => whitelistedList vs
  | .compare l ops rs =>
      whitelistedTree l && ops.all cmpKAllowed && whitelistedList rs
  | .call f args => whitelistedTree f && whitelistedList args
  | .attribute v attr => ! headUnderscore attr && whitelistedTree v
  | .subscript v idx => whitelistedTree v && whitelistedTree idx
  | .ifExp _ _ _ => false
  | .lam _ => false
  | .listComp _ _ => false
  | .listDisplay _ => false
  | .dictDisplay _ => false

/-- List version of `whitelistedTree`. -/
def whitelistedList : List PyExpr → Bool
  | [] => true
  | e :: es => whitelistedTree e && whitelistedList es

end

mutual

/-- Whether the tree contains an attribute access whose accessed name
begins with an underscore (the hypothesis of claim C4). -/
def containsPrivateAttr : PyExpr → Bool
  | .const _ => false
  | .name _ => false
  | .binop _ l r => containsPrivateAttr l || containsPrivateAttr r
  | .unaryop _ e => containsPrivateAttr e
  | .boolop _ vs => containsPrivateAttrList vs
  | .compare l _ rs => containsPrivateAttr l || containsPrivateAttrList rs
  | .call f args => containsPrivateAttr f || containsPrivateAttrList args
  | .attribute v attr => headUnderscore attr || containsPrivateAttr v
  | .subscript v idx => containsPrivateAttr v || containsPrivateAttr idx
  | .ifExp c t e => containsPrivateAttr c || containsPrivateAttr t || containsPrivateAttr e
  | .lam body => containsPrivateAttr body
  | .listComp elt iter => containsPrivateAttr elt || containsPrivateAttr iter
  | .listDisplay elts => containsPrivateAttrList elts
  | .dictDisplay kvs => containsPrivateAttrPairs kvs

/-- List version of `containsPrivateAttr`. -/
def containsPrivateAttrList : List PyExpr → Bool
  | [] => false
  | e :: es => containsPrivateAttr e || containsPrivateAttrList es

/-- Pair-list version of `containsPrivateAttr`. -/
def containsPrivateAttrPairs : List (PyExpr × PyExpr) → Bool
  | [] => false
  | (k, v) :: rest =>
      containsPrivateAttr k || containsPrivateAttr v || containsPrivateAttrPairs rest

end

/-! ## Evaluation (`eval(code, {"__builtins__": {}}, {**_ALLOWED_FUNCTIONS, **env})`) -/

/-- First-match lookup in a string-keyed association list (Python dict
lookup; keys are unique in every dict the code builds). -/
def lookupStr {α : Type} : List (String × α) → String → Option α
  | [], _ => Option.none
  | (k, v) :: rest, n => if k = n then some v else lookupStr rest n

/-- Numeric view of a value: `some (isFloat, q)` for ints, floats and
bools (Python bools are ints: `True == 1`), `none` otherwise. -/
def numOf : PyVal → Option (Bool × ℚ)
  | .int z => some (false, (z : ℚ))
  | .float q => some (true, q)
  | .bool b => some (false, if b then 1 else 0)
  | _ => Option.none

/-- Rebuild a numeric result: a float if either operand was a float,
otherwise an int (the rational is integral in every int case below). -/
def mkNum (isFloat : Bool) (q : ℚ) : PyVal :=
  if isFloat then .float q else .int q.num

/-- Python truthiness (`bool(v)`), as used by `not`, `and`/`or` and `if`. -/
def truthy : PyVal → Bool
  | .int z => z != 0
  | .float q => q != 0
  | .bool b => b
  | .str s => !s.data.isEmpty
  | .noneV => false
  | .list xs => !xs.isEmpty
  | .dict kvs => !kvs.isEmpty
  | .ns _ => true
  | .builtin _ => true

/-- String repetition (`s * n`). -/
def strRepeat (s : String) (n : ℤ) : String :=
  String.join (List.replicate n.toNat s)

mutual

/-- Python `==` on the modelled values: numeric values compare by value
across `int`/`float`/`bool`; strings, `None` and builtins compare
directly; containers compare elementwise.  Dict/namespace equality is
modelled pointwise in key order; every dict the code builds has a
deterministic key order, so this coincides with Python's unordered dict
equality on reachable values. -/
def pyEq : PyVal → PyVal → Bool
  | .str s, .str t => s == t
  | .noneV, .noneV => true
  | .list xs, .list ys => pyEqList xs ys
  | .dict xs, .dict ys => pyEqKVs xs ys
  | .ns xs, .ns ys => pyEqKVs xs ys
  | .builtin f, .builtin g => f == g
  | a, b =>
    match numOf a, numOf b with
    | some (_, x), some (_, y) => x == y
    | _, _ => false

/-- Elementwise list equality. -/
def pyEqList : List PyVal → List PyVal → Bool
  | [], [] => true
  | x :: xs, y :: ys => pyEq x y && pyEqList xs ys
  | _, _ => false

/-- Pointwise key-value list equality. -/
def pyEqKVs : List (String × PyVal) → List (String × PyVal) → Bool
  | [], [] => true
  | (k, v) :: xs, (l, w) :: ys => k == l && pyEq v w && pyEqKVs xs ys
  | _, _ => false

end

/-- Ordering comparisons (`<`, `<=`, `>`, `>=`) on numbers and strings;
other combinations raise `TypeError` (Python also orders lists
lexicographically, which no payroll formula does and which is not
modelled). -/
def cmpOrd (op : CmpK) (a b : PyVal) : Except PyErr Bool :=
  match numOf a, numOf b with
  | some (_, x), some (_, y) =>
      .ok (match op with
        | .lt => decide (x < y) | .le => decide (x ≤ y)
        | .gt => decide (y < x) | .ge => decide (y ≤ x)
        | _ => false)
  | _, _ =>
    match a, b with
    | .str s, .str t =>
        .ok (match op with
          | .lt => decide (s < t) | .le => decide (s ≤ t)
          | .gt => decide (t < s) | .ge => decide (t ≤ s)
          | _ => false)
    | _, _ => .error (.typeError "unorderable types")

/-- One comparison step (`ast.Compare` operator semantics). -/
def applyCmp (op : CmpK) (a b : PyVal) : Except PyErr Bool :=
  match op with
  | .eq => .ok (pyEq a b)
  | .ne => .ok (!pyEq a b)
  | .lt | .le | .gt | .ge => cmpOrd op a b
  | .isOp | .isNot | .inOp | .notIn =>
      .error (.unsupported "identity/membership operators are rejected by the validator")

/-- Binary operator semantics.  The bitwise/shift/matrix operators are
rejected by the validator before evaluation, so they are unreachable
through `compile_safe_expr` and reported as `unsupported`.  `**` with a
fractional exponent and `sqrt` of a non-square produce irrational floats
that the exact-rational model cannot represent (`floatApprox`). -/
def applyBin (op : BinK) (a b : PyVal) : Except PyErr PyVal :=
  match op with
  | .add =>
    match a, b with
    | .str s, .str t => .ok (.str (s ++ t))
    | .list xs, .list ys => .ok (.list (xs ++ ys))
    | _, _ =>
      match numOf a, numOf b with
      | some (fa, x), some (fb, y) => .ok (mkNum (fa || fb) (x + y))
      | _, _ => .error (.typeError "unsupported operand type(s) for +")
  | .sub =>
    match numOf a, numOf b with
    | some (fa, x), some (fb, y) => .ok (mkNum (fa || fb) (x - y))
    | _, _ => .error (.typeError "unsupported operand type(s) for -")
  | .mult =>
    match a, b with
    | .str s, .int n => .ok (.str (strRepeat s n))
    | .int n, .str s => .ok (.str (strRepeat s n))
    | _, _ =>
      match numOf a, numOf b with
      | some (fa, x), some (fb, y) => .ok (mkNum (fa || fb) (x * y))
      | _, _ => .error (.typeError "unsupported operand type(s) for *")
  | .div =>
    match numOf a, numOf b with
    | some (_, x), some (_, y) =>
        if y = 0 then .error .zeroDivisionError else .ok (.float (x / y))
    | _, _ => .error (.typeError "unsupported operand type(s) for /")
  | .floorDiv =>
    match numOf a, numOf b with
    | some (fa, x), some (fb, y) =>
        if y = 0 then .error .zeroDivisionError
        else .ok (mkNum (fa || fb) (⌊x / y⌋ : ℤ))
    | _, _ => .error (.typeError "unsupported operand type(s) for //")
  | .mod =>
    match numOf a, numOf b with
    | some (fa, x), some (fb, y) =>
        if y = 0 then .error .zeroDivisionError
        else .ok (mkNum (fa || fb) (x - y * (⌊x / y⌋ : ℤ)))
    | _, _ => .error (.typeError "unsupported operand type(s) for %")
  | .pow =>
    match numOf a, numOf b with
    | some (fa, x), some (fb, y) =>
        if y.den = 1 then
          if 0 ≤ y.num then .ok (mkNum (fa || fb) (x ^ y.num.toNat))
          else if x = 0 then .error .zeroDivisionError
          else .ok (.float (x ^ y.num))
        else .error (.floatApprox "fractional exponent")
    | _, _ => .error (.typeError "unsupported operand type(s) for **")
  | .bitAnd | .bitOr | .bitXor | .lshift | .rshift | .matMult =>
      .error (.unsupported "operator is rejected by the validator")

/-- Unary operator semantics; `~` is rejected by the validator before
evaluation. -/
def applyUn (op : UnK) (v : PyVal) : Except PyErr PyVal :=
  match op with
  | .uadd =>
    match numOf v with
    | some (f, x) => .ok (mkNum f x)
    | Option.none => .error (.typeError "bad operand type for unary +")
  | .usub =>
    match numOf v with
    | some (f, x) => .ok (mkNum f (-x))
    | Option.none => .error (.typeError "bad operand type for unary -")
  | .notOp => .ok (.bool (!truthy v))
  | .invert => .error (.unsupported "operator is rejected by the validator")

/-- `round` half-to-even (Python's banker's rounding). -/
def roundHalfEven (q : ℚ) : ℤ :=
  let f : ℤ := ⌊q⌋
  let r : ℚ := q - (f : ℚ)
  if r < 1 / 2 then f
  else if 1 / 2 < r then f + 1
  else if f % 2 = 0 then f else f + 1

/-- Exact square root of a nonnegative rational, when it exists. -/
def ratSqrt (q : ℚ) : Option ℚ :=
  let a := q.num.toNat
  let ra := Nat.sqrt a
  let rb := Nat.sqrt q.den
  if ra * ra = a ∧ rb * rb = q.den then some ((ra : ℚ) / (rb : ℚ)) else Option.none

/-- `_ALLOWED_FUNCTIONS`: the evaluation environment's function
whitelist (`abs, ceil, floor, round, sqrt, min, max`). -/
def builtinFn (n : String) : Option PyVal :=
  if n = "abs" ∨ n = "ceil" ∨ n = "floor" ∨ n = "round" ∨ n = "sqrt" ∨
     n = "min" ∨ n = "max" then some (.builtin n) else Option.none

/-- Fold for `min`/`max`: keep the argument that wins the comparison
(Python returns the original object, so `min(1, 2.0)` is the int `1`). -/
def minMaxFold (isMin : Bool) : PyVal → List PyVal → Except PyErr PyVal
  | best, [] => .ok best
  | best, v :: vs => do
      let replace ← if isMin then applyCmp .lt v best else applyCmp .gt v best
      minMaxFold isMin (if replace then v else best) vs

/-- `min`/`max` call semantics: varargs, or a single list argument. -/
def applyMinMax (isMin : Bool) : List PyVal → Except PyErr PyVal
  | [] => .error (.typeError "expected at least 1 argument")
  | [.list []] => .error (.valueError "empty iterable")
  | [.list (x :: xs)] => minMaxFold isMin x xs
  | [x] =>
    match numOf x with
    | some _ => .error (.typeError "object is not iterable")
    | Option.none =>
      match x with
      | .str _ => .error (.unsupported "iterating a string is not modelled")
      | _ => .error (.typeError "object is not iterable")
  | x :: xs => minMaxFold isMin x xs

/-- Semantics of the whitelisted builtins. -/
def applyBFn (f : String) (args : List PyVal) : Except PyErr PyVal :=
  if f = "abs" then
    match args with
    | [v] =>
      match numOf v with
      | some (fl, x) => .ok (mkNum fl |x|)
      | Option.none => .error (.typeError "bad operand type for abs()")
    | _ => .error (.typeError "abs() takes exactly one argument")
  else if f = "ceil" then
    match args with
    | [v] =>
      match numOf v with
      | some (_, x) => .ok (.int ⌈x⌉)
      | Option.none => .error (.typeError "must be a real number")
    | _ => .error (.typeError "ceil() takes exactly one argument")
  else if f = "floor" then
    match args with
    | [v] =>
      match numOf v with
      | some (_, x) => .ok (.int ⌊x⌋)
      | Option.none => .error (.typeError "must be a real number")
    | _ => .error (.typeError "floor() takes exactly one argument")
  else if f = "round" then
    match args with
    | [v] =>
      match numOf v with
      | some (_, x) => .ok (.int (roundHalfEven x))
      | Option.none => .error (.typeError "must be a real number")
    | [v, d] =>
      match numOf v, numOf d with
      | some (fl, x), some (false, k) =>
          let scale : ℚ := (10 : ℚ) ^ k.num
          .ok (mkNum fl (((roundHalfEven (x * scale) : ℤ) : ℚ) / scale))
      | _, _ => .error (.typeError "bad arguments for round()")
    | _ => .error (.typeError "round() takes 1 or 2 arguments")
  else if f = "sqrt" then
    match args with
    | [v] =>
      match numOf v with
      | some (_, x) =>
          if x < 0 then .error (.valueError "math domain error")
          else
            match ratSqrt x with
            | some r => .ok (.float r)
            | Option.none => .error (.floatApprox "irrational square root")
      | Option.none => .error (.typeError "must be a real number")
    | _ => .error (.typeError "sqrt() takes exactly one argument")
  else if f = "min" then applyMinMax true args
  else if f = "max" then applyMinMax false args
  else .error (.typeError "object is not callable")

/-- Call semantics: only the whitelisted builtins are callable values. -/
def applyCall (fv : PyVal) (args : List PyVal) : Except PyErr PyVal :=
  match fv with
  | .builtin f => applyBFn f args
  | _ => .error (.typeError "object is not callable")

/-- Attribute access on a `SimpleNamespace` (`_to_namespace` output).
Scalar and container values answer a handful of real attributes in
Python (methods such as `"x".upper`); none occurs in payroll formulas and
they are modelled as `AttributeError`. -/
def getAttr (v : PyVal) (attr : String) : Except PyErr PyVal :=
  match v with
  | .ns fields =>
    match lookupStr fields attr with
    | some w => .ok w
    | Option.none => .error (.attributeError attr)
  | _ => .error (.attributeError attr)

/-- Subscription semantics (`v[idx]`), with Python's negative indexing;
note that `_Validator` accepts `Subscript` nodes, so this is reachable
from validated formulas. -/
def getItem (v idx : PyVal) : Except PyErr PyVal :=
  match v with
  | .list xs =>
    match numOf idx with
    | some (false, q) =>
        let i : ℤ := if q.num < 0 then (xs.length : ℤ) + q.num else q.num
        if h : 0 ≤ i ∧ i.toNat < xs.length then .ok (xs.get ⟨i.toNat, h.2⟩)
        else .error .indexError
    | _ => .error (.typeError "list indices must be integers")
  | .str s =>
    match numOf idx with
    | some (false, q) =>
        let cs := s.data
        let i : ℤ := if q.num < 0 then (cs.length : ℤ) + q.num else q.num
        if h : 0 ≤ i ∧ i.toNat < cs.length then
          .ok (.str (String.mk [cs.get ⟨i.toNat, h.2⟩]))
        else .error .indexError
    | _ => .error (.typeError "string indices must be integers")
  | .dict kvs =>
    match idx with
    | .str k =>
      match lookupStr kvs k with
      | some w => .ok w
      | Option.none => .error (.keyError k)
    | _ => .error (.keyError "non-string key")
  | _ => .error (.typeError "object is not subscriptable")

/-- Value of a literal node. -/
def constVal : PyConst → PyVal
  | .int z => .int z
  | .float q => .float q
  | .bool b => .bool b
  | .str s => .str s
  | .noneC => .noneV

mutual

/-- Evaluation of a validated expression against an environment, with
empty `__builtins__`: a `Name` resolves through the environment or raises
`NameError` — there is no fallback.  `and`/`or` short-circuit and return
the deciding operand; chained comparisons short-circuit like Python's.
`lam`/`listComp`/`dictDisplay` never pass validation and are therefore
unreachable through `compile_safe_expr`. -/
def evalExpr (env : String → Option PyVal) : PyExpr → Except PyErr PyVal
  | .const c => .ok (constVal c)
  | .name n =>
    match env n with
    | some v => .ok v
    | Option.none => .error (.nameError n)
  | .binop op l r => do
      let a ← evalExpr env l
      let b ← evalExpr env r
      applyBin op a b
  | .unaryop op e => do
      let a ← evalExpr env e
      applyUn op a
  | .boolop op vs => evalBoolChain env op vs
  | .compare l ops rs => do
      let a ← evalExpr env l
      evalCmpChain env a ops rs
  | .call f args => do
      let fv ← evalExpr env f
      let avs ← evalArgs env args
      applyCall fv avs
  | .attribute v attr => do
      let vv ← evalExpr env v
      getAttr vv attr
  | .subscript v idx => do
      let vv ← evalExpr env v
      let iv ← evalExpr env idx
      getItem vv iv
  | .ifExp c t e => do
      let cv ← evalExpr env c
      if truthy cv then evalExpr env t else evalExpr env e
  | .lam _ => .error (.unsupported "lambda is rejected by the validator")
  | .listComp _ _ => .error (.unsupported "comprehension is rejected by the validator")
  | .listDisplay elts => do
      let vs ← evalArgs env elts
      .ok (.list vs)
  | .dictDisplay _ => .error (.unsupported "dict display is rejected by the validator")

/-- Evaluate arguments left to right. -/
def evalArgs (env : String → Option PyVal) : List PyExpr → Except PyErr (List PyVal)
  | [] => .ok []
  | e :: es => do
      let v ← evalExpr env e
      let vs ← evalArgs env es
      .ok (v :: vs)

/-- `and`/`or` chain with short-circuiting, returning the last operand
evaluated. -/
def evalBoolChain (env : String → Option PyVal) (op : BoolK) :
    List PyExpr → Except PyErr PyVal
  | [] => .error (.unsupported "empty boolean operation")
  | [e] => evalExpr env e
  | e :: e2 :: es => do
      let v ← evalExpr env e
      match op with
      | .andOp => if truthy v then evalBoolChain env op (e2 :: es) else .ok v
      | .orOp => if truthy v then .ok v else evalBoolChain env op (e2 :: es)

/-- Chained comparison: each comparator is evaluated only while the chain
is still true. -/
def evalCmpChain (env : String → Option PyVal) (a : PyVal) :
    List CmpK → List PyExpr → Except PyErr PyVal
  | [], [] => .ok (.bool true)
  | op :: ops, r :: rs => do
      let b ← evalExpr env r
      let c ← applyCmp op a b
      if c then evalCmpChain env b ops rs else .ok (.bool false)
  | _, _ => .error (.unsupported "malformed comparison")

end

/-! ## Engine data model (`rules.py`, `engine.py`) -/

/-- A breakdown entry: the dict `{"label": ..., "amount": ..., "direction": ...}`
stored by `PayrollEngine.run`. -/
structure Entry where
  label : String
  amount : ℚ
  direction : String
deriving DecidableEq

/-- The engine's `breakdown` dict: string keys (rule ids) in insertion
order, unique keys. -/
abbrev Breakdown := List (String × Entry)

/-- The scenario context `{"gross": gross, "flags": flags}` built by
`PayrollEngine.run`; amounts are idealised as exact rationals. -/
structure Ctx where
  gross : ℚ
  flags : List (String × PyVal)

/-! ## Compiled formula environment (`compile_safe_expr._fn`) -/

/-- The Python dict value a breakdown entry takes inside the evaluation
environment (`**results` in `_fn`). -/
def entryVal (e : Entry) : PyVal :=
  .dict [("label", .str e.label), ("amount", .float e.amount),
         ("direction", .str e.direction)]

mutual

/-- `_to_namespace`: recursively convert dicts to attribute-accessible
namespaces; values of any other shape (including lists and their
elements) are returned unchanged. -/
def toNamespace : PyVal → PyVal
  | .dict kvs => .ns (toNamespaceKVs kvs)
  | .int z => .int z
  | .float q => .float q
  | .bool b => .bool b
  | .str s => .str s
  | .noneV => .noneV
  | .list xs => .list xs
  | .ns fields => .ns fields
  | .builtin f => .builtin f

/-- Recursive conversion of dict values. -/
def toNamespaceKVs : List (String × PyVal) → List (String × PyVal)
  | [] => []
  | (k, v) :: rest => (k, toNamespace v) :: toNamespaceKVs rest

end

/-- The environment `_fn` evaluates in:
`{**_ALLOWED_FUNCTIONS, **{**_ALLOWED_CONSTANTS, **constants, **results,
"gross": ctx["gross"], "flags": _to_namespace(ctx["flags"])}}`.
Later dict entries shadow earlier ones, so the lookup precedence
(highest first) is: `flags`, `gross`, prior results, the constants table,
the fixed constants `true`/`false`/`null`, the function whitelist. -/
def buildEnv (constants : List (String × PyVal)) (results : Breakdown)
    (ctx : Ctx) (n : String) : Option PyVal :=
  if n = "flags" then some (toNamespace (.dict ctx.flags))
  else if n = "gross" then some (.float ctx.gross)
  else
    match lookupStr results n with
    | some e => some (entryVal e)
    | Option.none =>
      match lookupStr constants n with
      | some v => some v
      | Option.none =>
        if n = "true" then some (.bool true)
        else if n = "false" then some (.bool false)
        else if n = "null" then some .noneV
        else builtinFn n

/-- Argument of `compile_safe_expr`: either a non-string literal (which
bypasses parsing entirely) or a formula string, represented by its parse
tree (text-to-AST parsing itself is not modelled). -/
inductive ExprArg where
  | lit (v : PyVal)
  | strExpr (e : PyExpr)

/-- `compile_safe_expr`: literals compile to a constant-returning
closure; strings are validated once (`_compile`) — any validation failure
is a `SafeEvalError` and no closure is produced — and otherwise compile
to a closure evaluating the tree in the `_fn` environment. -/
def compileSafeExpr (a : ExprArg) (constants : List (String × PyVal)) :
    Except PyErr (Ctx → Breakdown → Except PyErr PyVal) :=
  match a with
  | .lit v => .ok (fun _ _ => .ok v)
  | .strExpr e =>
    match validate e with
    | .error msg => .error (.safeEvalError msg)
    | .ok _ => .ok (fun ctx results => evalExpr (buildEnv constants results ctx) e)

/-- Compile, then run the produced closure (compile-time errors carry
through). -/
def evalCompiled (a : ExprArg) (constants : List (String × PyVal))
    (ctx : Ctx) (results : Breakdown) : Except PyErr PyVal :=
  match compileSafeExpr a constants with
  | .error err => .error err
  | .ok f => f ctx results

/-- Whether compilation succeeded (used to state C5's counterexample). -/
def compilesOk (a : ExprArg) (constants : List (String × PyVal)) : Bool :=
  match compileSafeExpr a constants with
  | .ok _ => true
  | .error _ => false

/-- Whether an error is the sandbox's own kind (`SafeEvalError`). -/
def isSandboxErr : PyErr → Bool
  | .safeEvalError _ => true
  | _ => false

/-! ## Compiled rules (`rules.py`) -/

/-- A fully-prepared, immutable rule (`CompiledRule`).  The two function
objects are modelled as Lean functions, ℚ-valued for the amount and
Bool-valued for the condition (the numeric idealisation of the formula
layer).  Python function objects carry their originally-supplied formula
text in `__doc__`; Lean functions carry no metadata, so the two
docstrings are explicit fields. -/
structure CompiledRule where
  id : String
  label : String
  direction : String
  amount_fn : Ctx → Breakdown → ℚ
  condition_fn : Ctx → Breakdown → Bool
  amountDoc : Option String
  condDoc : Option String

/-- `CompiledRule.amount`: the amount when the condition holds, `0.0`
otherwise. -/
def CompiledRule.amount (r : CompiledRule) (ctx : Ctx) (results : Breakdown) : ℚ :=
  if r.condition_fn ctx results then r.amount_fn ctx results else 0

/-- A raw formula field of a rule declaration, as handed to
`compile_safe_expr`: either a non-string literal or a formula string.
This abstracts the sandbox's engine-facing contract (the sandbox itself
is modelled above): a literal compiles to a constant closure with no
docstring, a string compiles to some closure whose `__doc__` is the
original text. -/
inductive FSpec (α : Type) where
  | lit (v : α)
  | expr (text : String) (fn : Ctx → Breakdown → α)

/-- `compile_safe_expr` as used by the rule compilers: the produced
closure together with its `__doc__`. -/
def FSpec.compile {α : Type} : FSpec α → (Ctx → Breakdown → α) × Option String
  | .lit v => (fun _ _ => v, Option.none)
  | .expr text fn => (fn, some text)

/-- A raw rule declaration (`spec` dict): the fields the two built-in
rule kinds read.  `id` is mandatory (`spec["id"]`). -/
structure RawDecl where
  type : String
  id : String
  label : Option String
  direction : Option String
  rate : Option (FSpec ℚ)
  base : Option (FSpec ℚ)
  amount : Option (FSpec ℚ)
  condition : Option (FSpec Bool)

/-- `spec.get("base", "gross")`: the default base is the formula string
`"gross"`, which evaluates to the scenario's gross salary (the `_fn`
environment binds `"gross"` after results and constants, so nothing
shadows it). -/
def grossFSpec : FSpec ℚ := .expr "gross" (fun ctx _ => ctx.gross)

/-- Compile the optional condition: absent conditions become
`lambda *_: True`, which has no docstring. -/
def compileCond : Option (FSpec Bool) → (Ctx → Breakdown → Bool) × Option String
  | Option.none => (fun _ _ => true, Option.none)
  | some cspec => FSpec.compile cspec

/-- `PercentageRule.compile`: amount = `sign * rate(ctx, results) *
base(ctx, results)` with sign −1 for direction `employee` and +1
otherwise; direction defaults to `"employee"` and any value outside the
three valid tags raises `ValueError`.  The wrapper `amount_fn` is a plain
`def` with no docstring, so the compiled rule's `amountDoc` is `none`
even though rate/base retain theirs. -/
def PercentageRule.compile (d : RawDecl) : Except String CompiledRule :=
  match d.rate with
  | Option.none => .error ("KeyError: rate in rule " ++ d.id)
  | some rspec =>
    let rate_fn := (FSpec.compile rspec).1
    let base_fn := (FSpec.compile (d.base.getD grossFSpec)).1
    let cond := compileCond d.condition
    let direction := d.direction.getD "employee"
    if direction = "employee" ∨ direction = "employer" ∨ direction = "neutral" then
      let sign : ℚ := if direction = "employee" then -1 else 1
      .ok { id := d.id, label := d.label.getD d.id, direction := direction,
            amount_fn := fun ctx results => sign * rate_fn ctx results * base_fn ctx results,
            condition_fn := cond.1,
            amountDoc := Option.none,
            condDoc := cond.2 }
    else .error (d.id ++ ": invalid direction " ++ direction)

/-- `CreditRule.compile`: the amount formula is used unchanged; direction
defaults to `"neutral"`, with the same validity check. -/
def CreditRule.compile (d : RawDecl) : Except String CompiledRule :=
  match d.amount with
  | Option.none => .error ("KeyError: amount in rule " ++ d.id)
  | some aspec =>
    let amt := FSpec.compile aspec
    let cond := compileCond d.condition
    let direction := d.direction.getD "neutral"
    if direction = "employee" ∨ direction = "employer" ∨ direction = "neutral" then
      .ok { id := d.id, label := d.label.getD d.id, direction := direction,
            amount_fn := amt.1, condition_fn := cond.1,
            amountDoc := amt.2, condDoc := cond.2 }
    else .error (d.id ++ ": invalid direction " ++ direction)

/-! ## Loader (`loader.py`) -/

/-- `_RULE_REGISTRY` after the two built-in `register()` calls at import
time: exact string match on the type tag. -/
def RULE_REGISTRY (tag : String) : Option (RawDecl → Except String CompiledRule) :=
  if tag = "percentage" then some PercentageRule.compile
  else if tag = "credit" then some CreditRule.compile
  else Option.none

/-- `load_rules`' compilation loop over the declaration list: an unknown
type tag raises `KeyError` immediately (so no list of compiled rules is
produced), otherwise each declaration is compiled in order. -/
def load_rules : List RawDecl → Except String (List CompiledRule)
  | [] => .ok []
  | d :: ds =>
    match RULE_REGISTRY d.type with
    | Option.none =>
        .error ("Unknown rule type: " ++ d.type ++ ". Did you forget to register a plugin?")
    | some comp => do
        let cr ← comp d
        let rest ← load_rules ds
        .ok (cr :: rest)

/-! ## The engine (`engine.py`) -/

/-- The loop state of `PayrollEngine.run`: the breakdown dict and the two
running totals. -/
structure RunState where
  breakdown : Breakdown
  employer_total : ℚ
  employee_total : ℚ

/-- Python dict assignment `breakdown[rule.id] = entry`: an existing key
keeps its position and gets the new value; a new key is appended. -/
def dictInsert : Breakdown → String → Entry → Breakdown
  | [], k, v => [(k, v)]
  | (k0, v0) :: rest, k, v =>
    if k0 = k then (k0, v) :: rest else (k0, v0) :: dictInsert rest k v

/-- The rule loop of `PayrollEngine.run`: each rule's `amount` is
evaluated against the breakdown accumulated so far; `if not amt: continue`
skips zero amounts entirely; direction `"employer"` feeds
`employer_total`, every other direction (`"employee"` and `"neutral"`)
feeds `employee_total`. -/
def runLoop (ctx : Ctx) : List CompiledRule → RunState → RunState
  | [], s => s
  | r :: rs, s =>
    let amt := r.amount ctx s.breakdown
    if amt = 0 then runLoop ctx rs s
    else
      runLoop ctx rs
        { breakdown := dictInsert s.breakdown r.id ⟨r.label, amt, r.direction⟩,
          employer_total :=
            if r.direction = "employer" then s.employer_total + amt else s.employer_total,
          employee_total :=
            if r.direction = "employer" then s.employee_total else s.employee_total + amt }

/-- The sort key's group component: `0 if direction == "employee" else 1`. -/
def groupIdx (kv : String × Entry) : ℕ :=
  if kv.2.direction = "employee" then 0 else 1

/-- The sort order of the output breakdown: ascending in the Python key
`(0 if employee else 1, -abs(amount))`. -/
def entryLE (a b : String × Entry) : Prop :=
  groupIdx a < groupIdx b ∨ (groupIdx a = groupIdx b ∧ -|a.2.amount| ≤ -|b.2.amount|)

instance : DecidableRel entryLE := fun a b => by unfold entryLE; infer_instance

/-- The dict returned by `PayrollEngine.run`. -/
structure RunResult where
  gross : ℚ
  net : ℚ
  super_gross : ℚ
  breakdown : Breakdown
deriving DecidableEq

/-- `PayrollEngine.run`: run the loop, then `net = gross + employee_total`,
`super_gross = gross + employer_total`, and re-order the breakdown by the
presentation key.  Python's `sorted` is a stable sort; Mathlib's
`insertionSort` is stable as well, so with the same key order the output
lists coincide. -/
def PayrollEngine.run (rules : List CompiledRule) (gross : ℚ)
    (flags : List (String × PyVal)) : RunResult :=
  let ctx : Ctx := ⟨gross, flags⟩
  let s := runLoop ctx rules ⟨[], 0, 0⟩
  { gross := gross,
    net := gross + s.employee_total,
    super_gross := gross + s.employer_total,
    breakdown := List.insertionSort entryLE s.breakdown }

/-! ## Flag extraction (`PayrollEngine.get_flags`) -/

/-- The separator `"flags."` as a character pattern. -/
def flagsPat : List Char := ['f', 'l', 'a', 'g', 's', '.']

/-- Whether the pattern (first list) occurs at the head of the second. -/
def leadsWith : List Char → List Char → Bool
  | [], _ => true
  | _ :: _, [] => false
  | p :: ps, c :: cs => p = c && leadsWith ps cs

/-- `docstring.split("flags.")`: split on non-overlapping left-to-right
occurrences of the separator.  Structured with explicit fuel (one unit
per consumed character) so the definition is structural; the wrapper
supplies `length + 1`, which is always sufficient. -/
def splitFlagsAux : Nat → List Char → List Char → List (List Char)
  | 0, s, acc => [acc.reverse ++ s]
  | _ + 1, [], acc => [acc.reverse]
  | fuel + 1, c :: rest, acc =>
    if leadsWith flagsPat (c :: rest) then
      acc.reverse :: splitFlagsAux fuel ((c :: rest).drop flagsPat.length) []
    else splitFlagsAux fuel rest (c :: acc)

/-- `docstring.split("flags.")` as a list of strings. -/
def pySplitFlags (doc : String) : List String :=
  (splitFlagsAux (doc.data.length + 1) doc.data []).map String.mk

/-- `PayrollEngine._extract_flags_from_docstring`: for every part after
an occurrence of `"flags."`, the longest prefix of alphanumeric or
underscore characters, kept when nonempty. -/
def extractFlagsFromDocstring (doc : String) : List String :=
  ((pySplitFlags doc).drop 1).filterMap (fun part =>
    let nm := part.data.takeWhile (fun c => c.isAlphanum || c = '_')
    if nm.isEmpty then Option.none else some (String.mk nm))

/-- Flags mined from an optional docstring (`None` yields nothing). -/
def optDocFlags : Option String → List String
  | Option.none => []
  | some doc => extractFlagsFromDocstring doc

/-- All flags mined from every rule's `condition_fn.__doc__` and
`amount_fn.__doc__`, in visit order. -/
def allDocFlags : List CompiledRule → List String
  | [] => []
  | r :: rs => optDocFlags r.condDoc ++ optDocFlags r.amountDoc ++ allDocFlags rs

/-- `PayrollEngine.get_flags`: the mined names as a set, returned sorted.
`sorted(list({...}))` is the unique duplicate-free ascending enumeration
of the set, which `dedup` followed by a sort also produces. -/
def PayrollEngine.get_flags (rules : List CompiledRule) : List String :=
  List.insertionSort (fun a b => a ≤ b) (allDocFlags rules).dedup

/-! ## Claim-side sums over a breakdown -/

/-- Sum of the amounts of the breakdown entries whose direction satisfies
`p` (used to state the totals claims). -/
def breakdownSum (b : Breakdown) (p : String → Bool) : ℚ :=
  ((b.filter (fun kv => p kv.2.direction)).map (fun kv => kv.2.amount)).sum

/-! ## Engine lemmas -/

theorem runLoop_append (ctx : Ctx) (xs ys : List CompiledRule) :
    ∀ s, runLoop ctx (xs ++ ys) s = runLoop ctx ys (runLoop ctx xs s) := by
  induction xs with
  | nil => intro s; rfl
  | cons r rs ih =>
    intro s
    simp only [List.cons_append, runLoop]
    split
    · exact ih _
    · exact ih _

theorem dictInsert_not_mem (k : String) (v : Entry) :
    ∀ b : Breakdown, k ∉ b.map Prod.fst → dictInsert b k v = b ++ [(k, v)] := by
  intro b
  induction b with
  | nil => intro _; rfl
  | cons kv rest ih =>
    intro h
    obtain ⟨k0, v0⟩ := kv
    simp only [List.map_cons, List.mem_cons, not_or] at h
    have hne : k0 ≠ k := Ne.symm h.1
    simp [dictInsert, hne, ih h.2]

theorem breakdownSum_append (b₁ b₂ : Breakdown) (p : String → Bool) :
    breakdownSum (b₁ ++ b₂) p = breakdownSum b₁ p + breakdownSum b₂ p := by
  simp [breakdownSum, List.filter_append]

theorem breakdownSum_single (k : String) (v : Entry) (p : String → Bool) :
    breakdownSum [(k, v)] p = if p v.direction then v.amount else 0 := by
  by_cases h : p v.direction = true
  · simp [breakdownSum, List.filter, h]
  · simp only [Bool.not_eq_true] at h
    simp [breakdownSum, List.filter, h]

theorem breakdownSum_perm {b₁ b₂ : Breakdown} (h : b₁.Perm b₂) (p : String → Bool) :
    breakdownSum b₁ p = breakdownSum b₂ p := by
  unfold breakdownSum
  exact List.Perm.sum_eq (List.Perm.map _ (List.Perm.filter _ h))

theorem runLoop_totals_inv (ctx : Ctx) :
    ∀ (rs : List CompiledRule) (s : RunState),
      (rs.map CompiledRule.id).Nodup →
      (∀ r ∈ rs, r.id ∉ s.breakdown.map Prod.fst) →
      s.employer_total = breakdownSum s.breakdown (fun d => d == "employer") →
      s.employee_total = breakdownSum s.breakdown (fun d => d != "employer") →
      (runLoop ctx rs s).employer_total =
          breakdownSum (runLoop ctx rs s).breakdown (fun d => d == "employer") ∧
        (runLoop ctx rs s).employee_total =
          breakdownSum (runLoop ctx rs s).breakdown (fun d => d != "employer") := by
  intro rs
  induction rs with
  | nil => intro s _ _ h1 h2; exact ⟨h1, h2⟩
  | cons r rs ih =>
    intro s hnd hfresh h1 h2
    rw [List.map_cons, List.nodup_cons] at hnd
    have hfr : r.id ∉ s.breakdown.map Prod.fst := hfresh r (List.mem_cons_self r rs)
    have hfresh' : ∀ r' ∈ rs, r'.id ∉ s.breakdown.map Prod.fst ++ [r.id] := by
      intro r' hr'
      simp only [List.mem_append, List.mem_singleton, not_or]
      exact ⟨hfresh r' (List.mem_cons_of_mem _ hr'),
        fun he => hnd.1 (he ▸ List.mem_map_of_mem CompiledRule.id hr')⟩
    simp only [runLoop]
    split
    · exact ih s hnd.2 (fun r' hr' => hfresh r' (List.mem_cons_of_mem _ hr')) h1 h2
    · rename_i hz
      set amt := r.amount ctx s.breakdown with hamt
      apply ih _ hnd.2
      · intro r' hr'
        simpa [dictInsert_not_mem _ _ _ hfr] using hfresh' r' hr'
      · simp only [dictInsert_not_mem _ _ _ hfr, breakdownSum_append, breakdownSum_single]
        by_cases hd : r.direction = "employer"
        · simp [hd, h1]
        · have : (r.direction == "employer") = false := by
            simpa using hd
          simp [if_neg hd, this, h1]
      · simp only [dictInsert_not_mem _ _ _ hfr, breakdownSum_append, breakdownSum_single]
        by_cases hd : r.direction = "employer"
        · simp [hd, h2]
        · have : (r.direction != "employer") = true := by
            simpa using hd
          simp [if_neg hd, this, h2]

/-! ## Claim C2 -/

/-- C2: a rule whose condition evaluates false, or whose amount formula
evaluates to exactly zero, at the point it is reached, leaves the run of
the whole rule set unchanged — it produces no breakdown entry and
contributes nothing to either total. -/
theorem skipped_rule_no_effect (rules₁ rules₂ : List CompiledRule) (r : CompiledRule)
    (gross : ℚ) (flags : List (String × PyVal))
    (h : r.condition_fn ⟨gross, flags⟩ (runLoop ⟨gross, flags⟩ rules₁ ⟨[], 0, 0⟩).breakdown = false ∨
         r.amount_fn ⟨gross, flags⟩ (runLoop ⟨gross, flags⟩ rules₁ ⟨[], 0, 0⟩).breakdown = 0) :
    PayrollEngine.run (rules₁ ++ r :: rules₂) gross flags =
      PayrollEngine.run (rules₁ ++ rules₂) gross flags := by
  have hz : r.amount ⟨gross, flags⟩ (runLoop ⟨gross, flags⟩ rules₁ ⟨[], 0, 0⟩).breakdown = 0 := by
    unfold CompiledRule.amount
    rcases h with h | h
    · simp [h]
    · simp [h]
  have key : runLoop ⟨gross, flags⟩ (rules₁ ++ r :: rules₂) ⟨[], 0, 0⟩ =
      runLoop ⟨gross, flags⟩ (rules₁ ++ rules₂) ⟨[], 0, 0⟩ := by
    rw [runLoop_append, runLoop_append]
    simp only [runLoop, hz, if_pos]
  simp only [PayrollEngine.run, key]

/-- A rule whose condition is always false (C2's witness). -/
def rFalse : CompiledRule :=
  ⟨"skip", "Skip", "employee", fun _ _ => 5, fun _ _ => false, Option.none, Option.none⟩

theorem skipped_rule_no_effect_witness :
    (rFalse.condition_fn ⟨1000, []⟩ (runLoop ⟨1000, []⟩ [] ⟨[], 0, 0⟩).breakdown = false ∨
      rFalse.amount_fn ⟨1000, []⟩ (runLoop ⟨1000, []⟩ [] ⟨[], 0, 0⟩).breakdown = 0) ∧
      PayrollEngine.run ([] ++ rFalse :: []) 1000 [] = PayrollEngine.run ([] ++ []) 1000 [] :=
  ⟨Or.inl rfl, skipped_rule_no_effect [] [] rFalse 1000 [] (Or.inl rfl)⟩

/-! ## Claim C1 -/

/-- A neutral-direction rule contributing 100 (C1's counterexample). -/
def neutralRule : CompiledRule :=
  ⟨"stipend", "Stipend", "neutral", fun _ _ => 100, fun _ _ => true, Option.none, Option.none⟩

/-- C1 (counterexample): with a single neutral-direction rule of amount
100 at gross 1000, the engine returns net = 1100 and super_gross = 1000,
while the claim predicts net = 1000 + 0 and super_gross = 1000 + 100 —
`neutral` feeds the employee total, not the employer total. -/
theorem neutral_direction_counterexample :
    ¬((PayrollEngine.run [neutralRule] 1000 []).net =
        1000 + breakdownSum (PayrollEngine.run [neutralRule] 1000 []).breakdown
          (fun d => d == "employee") ∧
      (PayrollEngine.run [neutralRule] 1000 []).super_gross =
        1000 + breakdownSum (PayrollEngine.run [neutralRule] 1000 []).breakdown
          (fun d => d != "employee")) := by
  have hne : ("neutral" : String) ≠ "employer" := by decide
  have hnee : (("neutral" : String) == "employee") = false := by decide
  rintro ⟨h1, -⟩
  rw [show (PayrollEngine.run [neutralRule] 1000 []).net = 1100 by
        norm_num [PayrollEngine.run, runLoop, CompiledRule.amount, neutralRule, hne]] at h1
  rw [show breakdownSum (PayrollEngine.run [neutralRule] 1000 []).breakdown
        (fun d => d == "employee") = 0 by
        norm_num [PayrollEngine.run, runLoop, CompiledRule.amount, neutralRule, hne, hnee,
          dictInsert, List.insertionSort, List.orderedInsert, breakdownSum]] at h1
  norm_num at h1

/-- C1 (amended): for rule sets with pairwise-distinct rule ids,
net = gross + (sum of breakdown amounts whose direction is anything other
than `employer`) and super_gross = gross + (sum of breakdown amounts with
direction exactly `employer`): the employer total counts only
employer-direction amounts, and the employee total counts both `employee`
and `neutral`. -/
theorem run_totals_directions (rules : List CompiledRule) (gross : ℚ)
    (flags : List (String × PyVal)) (h : (rules.map CompiledRule.id).Nodup) :
    (PayrollEngine.run rules gross flags).net =
        gross + breakdownSum (PayrollEngine.run rules gross flags).breakdown
          (fun d => d != "employer") ∧
      (PayrollEngine.run rules gross flags).super_gross =
        gross + breakdownSum (PayrollEngine.run rules gross flags).breakdown
          (fun d => d == "employer") := by
  have inv := runLoop_totals_inv ⟨gross, flags⟩ rules ⟨[], 0, 0⟩ h
    (by intro r _; simp) (by simp [breakdownSum]) (by simp [breakdownSum])
  have hperm : (List.insertionSort entryLE
      (runLoop ⟨gross, flags⟩ rules ⟨[], 0, 0⟩).breakdown).Perm
      (runLoop ⟨gross, flags⟩ rules ⟨[], 0, 0⟩).breakdown :=
    List.perm_insertionSort _ _
  have hb : (PayrollEngine.run rules gross flags).breakdown =
      List.insertionSort entryLE (runLoop ⟨gross, flags⟩ rules ⟨[], 0, 0⟩).breakdown := rfl
  have hn : (PayrollEngine.run rules gross flags).net =
      gross + (runLoop ⟨gross, flags⟩ rules ⟨[], 0, 0⟩).employee_total := rfl
  have hsg : (PayrollEngine.run rules gross flags).super_gross =
      gross + (runLoop ⟨gross, flags⟩ rules ⟨[], 0, 0⟩).employer_total := rfl
  exact ⟨by rw [hn, hb, inv.2, breakdownSum_perm hperm],
    by rw [hsg, hb, inv.1, breakdownSum_perm hperm]⟩

/-- An employee-direction rule (used in witnesses). -/
def empRule : CompiledRule :=
  ⟨"tax", "Tax", "employee", fun _ _ => -150, fun _ _ => true, Option.none, Option.none⟩

/-- An employer-direction rule (used in witnesses). -/
def erRule : CompiledRule :=
  ⟨"soc", "Soc", "employer", fun _ _ => 200, fun _ _ => true, Option.none, Option.none⟩

theorem run_totals_directions_witness :
    ([empRule, erRule].map CompiledRule.id).Nodup ∧
      ((PayrollEngine.run [empRule, erRule] 1000 []).net =
          1000 + breakdownSum (PayrollEngine.run [empRule, erRule] 1000 []).breakdown
            (fun d => d != "employer") ∧
        (PayrollEngine.run [empRule, erRule] 1000 []).super_gross =
          1000 + breakdownSum (PayrollEngine.run [empRule, erRule] 1000 []).breakdown
            (fun d => d == "employer")) :=
  ⟨by decide, run_totals_directions [empRule, erRule] 1000 [] (by decide)⟩

/-! ## Claim C8 -/

instance : IsTotal (String × Entry) entryLE := ⟨by
  intro a b
  unfold entryLE
  rcases Nat.lt_trichotomy (groupIdx a) (groupIdx b) with h | h | h
  · exact Or.inl (Or.inl h)
  · rcases le_total (-|a.2.amount|) (-|b.2.amount|) with hq | hq
    · exact Or.inl (Or.inr ⟨h, hq⟩)
    · exact Or.inr (Or.inr ⟨h.symm, hq⟩)
  · exact Or.inr (Or.inl h)⟩

instance : IsTrans (String × Entry) entryLE := ⟨by
  intro a b c hab hbc
  unfold entryLE at *
  rcases hab with hab | ⟨hab, hab2⟩ <;> rcases hbc with hbc | ⟨hbc, hbc2⟩
  · exact Or.inl (hab.trans hbc)
  · exact Or.inl (hbc ▸ hab)
  · exact Or.inl (hab ▸ hbc)
  · exact Or.inr ⟨hab.trans hbc, hab2.trans hbc2⟩⟩

/-- C8: the returned breakdown lists every employee-direction entry
before every other entry, is non-increasing in absolute amount inside
each of the two groups, and the re-ordering is pure post-processing: it
is a permutation of the accumulated breakdown, and net/super_gross are
exactly the loop totals, computed before sorting. -/
theorem run_breakdown_ordering (rules : List CompiledRule) (gross : ℚ)
    (flags : List (String × PyVal)) :
    (PayrollEngine.run rules gross flags).breakdown.Pairwise (fun a b =>
        (b.2.direction = "employee" → a.2.direction = "employee") ∧
        ((a.2.direction = "employee" ↔ b.2.direction = "employee") →
          |b.2.amount| ≤ |a.2.amount|)) ∧
      (PayrollEngine.run rules gross flags).breakdown.Perm
        (runLoop ⟨gross, flags⟩ rules ⟨[], 0, 0⟩).breakdown ∧
      (PayrollEngine.run rules gross flags).net =
        gross + (runLoop ⟨gross, flags⟩ rules ⟨[], 0, 0⟩).employee_total ∧
      (PayrollEngine.run rules gross flags).super_gross =
        gross + (runLoop ⟨gross, flags⟩ rules ⟨[], 0, 0⟩).employer_total := by
  refine ⟨?_, List.perm_insertionSort _ _, rfl, rfl⟩
  have hs := List.sorted_insertionSort entryLE
    (runLoop ⟨gross, flags⟩ rules ⟨[], 0, 0⟩).breakdown
  refine List.Pairwise.imp ?_ hs
  intro a b hab
  constructor
  · intro hb
    rcases hab with hab | ⟨hab, -⟩
    · unfold groupIdx at hab
      rw [if_pos hb] at hab
      by_contra ha
      rw [if_neg ha] at hab
      omega
    · unfold groupIdx at hab
      rw [if_pos hb] at hab
      by_contra ha
      rw [if_neg ha] at hab
      omega
  · intro hiff
    have hg : groupIdx a = groupIdx b := by
      unfold groupIdx
      by_cases ha : a.2.direction = "employee"
      · rw [if_pos ha, if_pos (hiff.mp ha)]
      · rw [if_neg ha, if_neg (fun hb => ha (hiff.mpr hb))]
    rcases hab with hab | ⟨-, hab⟩
    · omega
    · linarith

/-! ## Claim C10 -/

/-- C10: when two rules share an id and both fire, the later rule's entry
replaces the earlier one's in the breakdown dict, while both amounts are
still accumulated into the totals. -/
theorem duplicate_id_overwrite (r1 r2 : CompiledRule) (gross : ℚ)
    (flags : List (String × PyVal)) (hid : r1.id = r2.id)
    (hc1 : r1.condition_fn ⟨gross, flags⟩ [] = true)
    (ha1 : r1.amount_fn ⟨gross, flags⟩ [] ≠ 0)
    (hc2 : r2.condition_fn ⟨gross, flags⟩
      [(r1.id, ⟨r1.label, r1.amount_fn ⟨gross, flags⟩ [], r1.direction⟩)] = true)
    (ha2 : r2.amount_fn ⟨gross, flags⟩
      [(r1.id, ⟨r1.label, r1.amount_fn ⟨gross, flags⟩ [], r1.direction⟩)] ≠ 0) :
    (PayrollEngine.run [r1, r2] gross flags).breakdown =
        [(r1.id, ⟨r2.label,
          r2.amount_fn ⟨gross, flags⟩
            [(r1.id, ⟨r1.label, r1.amount_fn ⟨gross, flags⟩ [], r1.direction⟩)],
          r2.direction⟩)] ∧
      (PayrollEngine.run [r1, r2] gross flags).net =
        gross + (if r1.direction = "employer" then 0 else r1.amount_fn ⟨gross, flags⟩ []) +
          (if r2.direction = "employer" then 0
           else r2.amount_fn ⟨gross, flags⟩
             [(r1.id, ⟨r1.label, r1.amount_fn ⟨gross, flags⟩ [], r1.direction⟩)]) ∧
      (PayrollEngine.run [r1, r2] gross flags).super_gross =
        gross + (if r1.direction = "employer" then r1.amount_fn ⟨gross, flags⟩ [] else 0) +
          (if r2.direction = "employer" then
            r2.amount_fn ⟨gross, flags⟩
              [(r1.id, ⟨r1.label, r1.amount_fn ⟨gross, flags⟩ [], r1.direction⟩)]
           else 0) := by
  have hloop : runLoop ⟨gross, flags⟩ [r1, r2] ⟨[], 0, 0⟩ =
      { breakdown := [(r1.id, ⟨r2.label,
          r2.amount_fn ⟨gross, flags⟩
            [(r1.id, ⟨r1.label, r1.amount_fn ⟨gross, flags⟩ [], r1.direction⟩)],
          r2.direction⟩)],
        employer_total :=
          (if r2.direction = "employer" then
            (if r1.direction = "employer" then 0 + r1.amount_fn ⟨gross, flags⟩ [] else 0) +
              r2.amount_fn ⟨gross, flags⟩
                [(r1.id, ⟨r1.label, r1.amount_fn ⟨gross, flags⟩ [], r1.direction⟩)]
           else (if r1.direction = "employer" then 0 + r1.amount_fn ⟨gross, flags⟩ [] else 0)),
        employee_total :=
          (if r2.direction = "employer" then
            (if r1.direction = "employer" then 0 else 0 + r1.amount_fn ⟨gross, flags⟩ [])
           else (if r1.direction = "employer" then 0 else 0 + r1.amount_fn ⟨gross, flags⟩ []) +
              r2.amount_fn ⟨gross, flags⟩
                [(r1.id, ⟨r1.label, r1.amount_fn ⟨gross, flags⟩ [], r1.direction⟩)]) } := by
    simp only [runLoop, CompiledRule.amount, hc1, hc2, if_true, if_neg ha1, if_neg ha2,
      dictInsert]
    rw [if_pos hid]
  refine ⟨?_, ?_, ?_⟩
  · show List.insertionSort entryLE (runLoop ⟨gross, flags⟩ [r1, r2] ⟨[], 0, 0⟩).breakdown = _
    rw [hloop]
    simp [List.insertionSort, List.orderedInsert]
  · show gross + (runLoop ⟨gross, flags⟩ [r1, r2] ⟨[], 0, 0⟩).employee_total = _
    rw [hloop]
    by_cases d1 : r1.direction = "employer" <;> by_cases d2 : r2.direction = "employer" <;>
      simp [d1, d2] <;> ring
  · show gross + (runLoop ⟨gross, flags⟩ [r1, r2] ⟨[], 0, 0⟩).employer_total = _
    rw [hloop]
    by_cases d1 : r1.direction = "employer" <;> by_cases d2 : r2.direction = "employer" <;>
      simp [d1, d2] <;> ring

/-- Two distinct rules sharing the id `"dup"` (C10's witness). -/
def dupRule1 : CompiledRule :=
  ⟨"dup", "First", "employee", fun _ _ => 10, fun _ _ => true, Option.none, Option.none⟩

/-- Second rule with the duplicated id (C10's witness). -/
def dupRule2 : CompiledRule :=
  ⟨"dup", "Second", "employee", fun _ _ => 20, fun _ _ => true, Option.none, Option.none⟩

theorem duplicate_id_overwrite_witness :
    dupRule1.id = dupRule2.id ∧
      ((PayrollEngine.run [dupRule1, dupRule2] 1000 []).breakdown =
          [(dupRule1.id, ⟨dupRule2.label,
            dupRule2.amount_fn ⟨1000, []⟩
              [(dupRule1.id, ⟨dupRule1.label, dupRule1.amount_fn ⟨1000, []⟩ [], dupRule1.direction⟩)],
            dupRule2.direction⟩)] ∧
        (PayrollEngine.run [dupRule1, dupRule2] 1000 []).net =
          1000 + (if dupRule1.direction = "employer" then 0 else dupRule1.amount_fn ⟨1000, []⟩ []) +
            (if dupRule2.direction = "employer" then 0
             else dupRule2.amount_fn ⟨1000, []⟩
               [(dupRule1.id, ⟨dupRule1.label, dupRule1.amount_fn ⟨1000, []⟩ [], dupRule1.direction⟩)]) ∧
        (PayrollEngine.run [dupRule1, dupRule2] 1000 []).super_gross =
          1000 + (if dupRule1.direction = "employer" then dupRule1.amount_fn ⟨1000, []⟩ [] else 0) +
            (if dupRule2.direction = "employer" then
              dupRule2.amount_fn ⟨1000, []⟩
                [(dupRule1.id, ⟨dupRule1.label, dupRule1.amount_fn ⟨1000, []⟩ [], dupRule1.direction⟩)]
             else 0)) :=
  ⟨rfl, duplicate_id_overwrite dupRule1 dupRule2 1000 [] rfl rfl
    (by norm_num [dupRule1]) rfl (by norm_num [dupRule2])⟩

/-! ## Claim C3 -/

/-- C3: a percentage declaration with a valid (or defaulted) direction
compiles to a rule whose amount is `sign * rate * base`, with sign −1
exactly for direction `employee`, and base defaulting to the scenario's
gross salary when the declaration has no `base`; any other direction
value makes compilation fail. -/
theorem percentage_compile_spec (d : RawDecl) (rspec : FSpec ℚ)
    (hr : d.rate = some rspec) (ctx : Ctx) (results : Breakdown) :
    ((d.direction.getD "employee" = "employee" ∨ d.direction.getD "employee" = "employer" ∨
        d.direction.getD "employee" = "neutral") →
      ∃ cr, PercentageRule.compile d = .ok cr ∧
        cr.direction = d.direction.getD "employee" ∧
        cr.amount_fn ctx results =
          (if d.direction.getD "employee" = "employee" then (-1 : ℚ) else 1) *
            (FSpec.compile rspec).1 ctx results *
            (match d.base with
             | some bspec => (FSpec.compile bspec).1 ctx results
             | Option.none => ctx.gross)) ∧
      (¬(d.direction.getD "employee" = "employee" ∨ d.direction.getD "employee" = "employer" ∨
          d.direction.getD "employee" = "neutral") →
        ∃ msg, PercentageRule.compile d = .error msg) := by
  constructor <;> intro hdir
  · unfold PercentageRule.compile
    rw [hr]
    simp only [if_pos hdir]
    exact ⟨_, rfl, rfl, by cases hb : d.base <;> simp [hb, grossFSpec, FSpec.compile]⟩
  · unfold PercentageRule.compile
    rw [hr]
    simp only [if_neg hdir]
    exact ⟨d.id ++ ": invalid direction " ++ d.direction.getD "employee", rfl⟩

/-- A concrete percentage declaration: 15 % of gross, employee side
(C3's witness). -/
def pctDecl : RawDecl :=
  ⟨"percentage", "income_tax", Option.none, some "employee", some (.lit (3 / 20)),
    Option.none, Option.none, Option.none⟩

theorem percentage_compile_spec_witness :
    pctDecl.rate = some (FSpec.lit (3 / 20)) ∧
      (pctDecl.direction.getD "employee" = "employee" ∨
        pctDecl.direction.getD "employee" = "employer" ∨
        pctDecl.direction.getD "employee" = "neutral") ∧
      ∃ cr, PercentageRule.compile pctDecl = .ok cr ∧
        cr.direction = pctDecl.direction.getD "employee" ∧
        cr.amount_fn ⟨1000, []⟩ [] =
          (if pctDecl.direction.getD "employee" = "employee" then (-1 : ℚ) else 1) *
            (FSpec.compile (FSpec.lit (3 / 20))).1 ⟨1000, []⟩ [] *
            (match pctDecl.base with
             | some bspec => (FSpec.compile bspec).1 ⟨1000, []⟩ []
             | Option.none => Ctx.gross ⟨1000, []⟩) :=
  ⟨rfl, Or.inl rfl,
    (percentage_compile_spec pctDecl (.lit (3 / 20)) rfl ⟨1000, []⟩ []).1 (Or.inl rfl)⟩

/-! ## Claim C7 -/

/-- C7: if any declaration in a document carries a type tag outside the
registry, compiling the declaration list fails with the unknown-rule-type
error; the error result carries no partial list of compiled rules, and
the declaration is not skipped. -/
theorem unknown_rule_type_fails (decls : List RawDecl) (d : RawDecl)
    (hmem : d ∈ decls) (hunk : RULE_REGISTRY d.type = Option.none) :
    ∃ msg, load_rules decls = .error msg := by
  induction decls with
  | nil => cases hmem
  | cons d0 ds ih =>
    rcases List.mem_cons.mp hmem with rfl | hmem'
    · exact ⟨"Unknown rule type: " ++ d.type ++ ". Did you forget to register a plugin?",
        by simp only [load_rules, hunk]⟩
    · rw [load_rules]
      cases hreg : RULE_REGISTRY d0.type with
      | none =>
        exact ⟨"Unknown rule type: " ++ d0.type ++ ". Did you forget to register a plugin?", rfl⟩
      | some comp =>
        obtain ⟨msg, hmsg⟩ := ih hmem'
        cases hcomp : comp d0 with
        | error e =>
          refine ⟨e, ?_⟩
          show (do
            let cr ← comp d0
            let rest ← load_rules ds
            Except.ok (cr :: rest)) = Except.error e
          rw [hcomp]
          rfl
        | ok cr =>
          refine ⟨msg, ?_⟩
          show (do
            let cr ← comp d0
            let rest ← load_rules ds
            Except.ok (cr :: rest)) = Except.error msg
          rw [hcomp, hmsg]
          rfl

/-- A declaration with an unregistered type tag (C7's witness). -/
def badDecl : RawDecl :=
  ⟨"gibberish", "x", Option.none, Option.none, Option.none, Option.none,
    Option.none, Option.none⟩

theorem unknown_rule_type_fails_witness :
    badDecl ∈ [badDecl] ∧ RULE_REGISTRY badDecl.type = Option.none ∧
      ∃ msg, load_rules [badDecl] = .error msg :=
  ⟨List.mem_singleton.mpr rfl, rfl,
    unknown_rule_type_fails [badDecl] badDecl (List.mem_singleton.mpr rfl) rfl⟩

/-! ## Claim C9 -/

theorem allDocFlags_mem (s : String) :
    ∀ rules : List CompiledRule,
      (s ∈ allDocFlags rules ↔
        ∃ r ∈ rules, s ∈ optDocFlags r.condDoc ∨ s ∈ optDocFlags r.amountDoc) := by
  intro rules
  induction rules with
  | nil => simp [allDocFlags]
  | cons r rs ih =>
    simp only [allDocFlags, List.mem_append, ih, List.mem_cons]
    constructor
    · rintro ((h | h) | ⟨r', hr', h⟩)
      · exact ⟨r, Or.inl rfl, Or.inl h⟩
      · exact ⟨r, Or.inl rfl, Or.inr h⟩
      · exact ⟨r', Or.inr hr', h⟩
    · rintro ⟨r', rfl | hr', h⟩
      · rcases h with h | h
        · exact Or.inl (Or.inl h)
        · exact Or.inl (Or.inr h)
      · exact Or.inr ⟨r', hr', h⟩

/-- C9: `get_flags` returns a sorted, duplicate-free list containing
exactly the names that follow a `flags.` occurrence in some rule's
retained condition or amount formula text; in particular the text
`flags.under25` surfaces `under25`, and a formula with no flag reference
surfaces nothing. -/
theorem get_flags_spec (rules : List CompiledRule) :
    List.Sorted (fun a b : String => a ≤ b) (PayrollEngine.get_flags rules) ∧
      (PayrollEngine.get_flags rules).Nodup ∧
      (∀ s, s ∈ PayrollEngine.get_flags rules ↔
        ∃ r ∈ rules, s ∈ optDocFlags r.condDoc ∨ s ∈ optDocFlags r.amountDoc) ∧
      extractFlagsFromDocstring "flags.under25 and gross < 1000" = ["under25"] ∧
      extractFlagsFromDocstring "gross * 0.15" = [] := by
  refine ⟨List.sorted_insertionSort _ _, ?_, ?_, rfl, rfl⟩
  · exact (List.perm_insertionSort _ _).nodup_iff.mpr (List.nodup_dedup _)
  · intro s
    rw [PayrollEngine.get_flags, (List.perm_insertionSort _ _).mem_iff, List.mem_dedup,
      allDocFlags_mem]

/-! ## Validator lemmas -/

@[simp] theorem bindE_ok {ε α β : Type} (a : α) (f : α → Except ε β) :
    (Except.ok a >>= f) = f a := rfl

@[simp] theorem bindE_error {ε α β : Type} (er : ε) (f : α → Except ε β) :
    ((Except.error er : Except ε α) >>= f) = Except.error er := rfl

mutual

theorem validate_ok_of_good : ∀ e : PyExpr, whitelistedTree e = true → validate e = .ok ()
  | .const _, _ => rfl
  | .name _, _ => rfl
  | .binop op l r, h => by
      simp only [whitelistedTree, Bool.and_eq_true] at h
      simp only [validate, validate_ok_of_good l h.1.2, bindE_ok, h.1.1, if_true]
      exact validate_ok_of_good r h.2
  | .unaryop op e, h => by
      simp only [whitelistedTree, Bool.and_eq_true] at h
      simp only [validate, h.1, if_true]
      exact validate_ok_of_good e h.2
  | .boolop op vs, h => by
      simp only [whitelistedTree] at h
      simp only [validate]
      exact validateList_ok_of_good vs h
  | .compare l ops rs, h => by
      simp only [whitelistedTree, Bool.and_eq_true] at h
      have hfind : ops.find? (fun o => !cmpKAllowed o) = Option.none := by
        rw [List.find?_eq_none]
        intro o ho
        simp [List.all_eq_true.mp h.1.2 o ho]
      simp only [validate, validate_ok_of_good l h.1.1, bindE_ok, hfind]
      exact validateList_ok_of_good rs h.2
  | .call f args, h => by
      simp only [whitelistedTree, Bool.and_eq_true] at h
      simp only [validate, validate_ok_of_good f h.1, bindE_ok]
      exact validateList_ok_of_good args h.2
  | .attribute v attr, h => by
      simp only [whitelistedTree, Bool.and_eq_true, Bool.not_eq_true'] at h
      simp only [validate, h.1, Bool.false_eq_true, if_false]
      exact validate_ok_of_good v h.2
  | .subscript v idx, h => by
      simp only [whitelistedTree, Bool.and_eq_true] at h
      simp only [validate, validate_ok_of_good v h.1, bindE_ok]
      exact validate_ok_of_good idx h.2

theorem validateList_ok_of_good :
    ∀ es : List PyExpr, whitelistedList es = true → validateList es = .ok ()
  | [], _ => rfl
  | e :: es, h => by
      simp only [whitelistedList, Bool.and_eq_true] at h
      simp only [validateList, validate_ok_of_good e h.1, bindE_ok]
      exact validateList_ok_of_good es h.2

end

mutual

theorem validate_ok_good : ∀ e : PyExpr, validate e = .ok () → whitelistedTree e = true
  | .const _, _ => rfl
  | .name _, _ => rfl
  | .binop op l r, h => by
      simp only [validate] at h
      cases hv : validate l with
      | error m => rw [hv, bindE_error] at h; cases h
      | ok u =>
        cases u
        rw [hv, bindE_ok] at h
        by_cases hop : binKAllowed op = true
        · rw [if_pos hop] at h
          simp only [whitelistedTree, Bool.and_eq_true]
          exact ⟨⟨hop, validate_ok_good l hv⟩, validate_ok_good r h⟩
        · rw [if_neg hop] at h; cases h
  | .unaryop op e, h => by
      simp only [validate] at h
      by_cases hop : unKAllowed op = true
      · rw [if_pos hop] at h
        simp only [whitelistedTree, Bool.and_eq_true]
        exact ⟨hop, validate_ok_good e h⟩
      · rw [if_neg hop] at h; cases h
  | .boolop op vs, h => by
      simp only [validate] at h
      simpa only [whitelistedTree] using validateList_ok_good vs h
  | .compare l ops rs, h => by
      simp only [validate] at h
      cases hv : validate l with
      | error m => rw [hv, bindE_error] at h; cases h
      | ok u =>
        cases u
        rw [hv, bindE_ok] at h
        cases hfind : ops.find? (fun o => !cmpKAllowed o) with
        | some o => rw [hfind] at h; cases h
        | none =>
          rw [hfind] at h
          simp only [whitelistedTree, Bool.and_eq_true]
          refine ⟨⟨validate_ok_good l hv, ?_⟩, validateList_ok_good rs h⟩
          rw [List.all_eq_true]
          intro o ho
          have := List.find?_eq_none.mp hfind o ho
          simpa using this
  | .call f args, h => by
      simp only [validate] at h
      cases hv : validate f with
      | error m => rw [hv, bindE_error] at h; cases h
      | ok u =>
        cases u
        rw [hv, bindE_ok] at h
        simp only [whitelistedTree, Bool.and_eq_true]
        exact ⟨validate_ok_good f hv, validateList_ok_good args h⟩
  | .attribute v attr, h => by
      simp only [validate] at h
      by_cases hu : headUnderscore attr = true
      · rw [if_pos hu] at h; cases h
      · rw [if_neg hu] at h
        simp only [whitelistedTree, Bool.and_eq_true, Bool.not_eq_true']
        exact ⟨Bool.not_eq_true _ ▸ hu, validate_ok_good v h⟩
  | .subscript v idx, h => by
      simp only [validate] at h
      cases hv : validate v with
      | error m => rw [hv, bindE_error] at h; cases h
      | ok u =>
        cases u
        rw [hv, bindE_ok] at h
        simp only [whitelistedTree, Bool.and_eq_true]
        exact ⟨validate_ok_good v hv, validate_ok_good idx h⟩
  | .ifExp _ _ _, h => by cases h
  | .lam _, h => by cases h
  | .listComp _ _, h => by cases h
  | .listDisplay _, h => by cases h
  | .dictDisplay _, h => by cases h

theorem validateList_ok_good :
    ∀ es : List PyExpr, validateList es = .ok () → whitelistedList es = true
  | [], _ => rfl
  | e :: es, h => by
      simp only [validateList] at h
      cases hv : validate e with
      | error m => rw [hv, bindE_error] at h; cases h
      | ok u =>
        cases u
        rw [hv, bindE_ok] at h
        simp only [whitelistedList, Bool.and_eq_true]
        exact ⟨validate_ok_good e hv, validateList_ok_good es h⟩

end

mutual

theorem private_not_whitelisted :
    ∀ e : PyExpr, containsPrivateAttr e = true → whitelistedTree e = false
  | .binop op l r, h => by
      simp only [containsPrivateAttr, Bool.or_eq_true] at h
      simp only [whitelistedTree]
      rcases h with h | h
      · simp [private_not_whitelisted l h]
      · simp [private_not_whitelisted r h]
  | .unaryop op e, h => by
      simp only [containsPrivateAttr] at h
      simp [whitelistedTree, private_not_whitelisted e h]
  | .boolop op vs, h => by
      simp only [containsPrivateAttr] at h
      simpa only [whitelistedTree] using privateList_not_whitelisted vs h
  | .compare l ops rs, h => by
      simp only [containsPrivateAttr, Bool.or_eq_true] at h
      simp only [whitelistedTree]
      rcases h with h | h
      · simp [private_not_whitelisted l h]
      · simp [privateList_not_whitelisted rs h]
  | .call f args, h => by
      simp only [containsPrivateAttr, Bool.or_eq_true] at h
      simp only [whitelistedTree]
      rcases h with h | h
      · simp [private_not_whitelisted f h]
      · simp [privateList_not_whitelisted args h]
  | .attribute v attr, h => by
      simp only [containsPrivateAttr, Bool.or_eq_true] at h
      simp only [whitelistedTree]
      rcases h with h | h
      · simp [h]
      · simp [private_not_whitelisted v h]
  | .subscript v idx, h => by
      simp only [containsPrivateAttr, Bool.or_eq_true] at h
      simp only [whitelistedTree]
      rcases h with h | h
      · simp [private_not_whitelisted v h]
      · simp [private_not_whitelisted idx h]
  | .ifExp _ _ _, _ => rfl
  | .lam _, _ => rfl
  | .listComp _ _, _ => rfl
  | .listDisplay _, _ => rfl
  | .dictDisplay _, _ => rfl

theorem privateList_not_whitelisted :
    ∀ es : List PyExpr, containsPrivateAttrList es = true → whitelistedList es = false
  | e :: es, h => by
      simp only [containsPrivateAttrList, Bool.or_eq_true] at h
      simp only [whitelistedList]
      rcases h with h | h
      · simp [private_not_whitelisted e h]
      · simp [privateList_not_whitelisted es h]

end

/-! ## Claim C4 -/

/-- C4: any formula whose tree contains an attribute access to an
underscore-prefixed name fails compilation with the sandbox's
`SafeEvalError`, raised by the validation pass inside
`compile_safe_expr` — no evaluation closure is produced, so the formula
is never executed. -/
theorem private_attr_rejected (e : PyExpr) (constants : List (String × PyVal))
    (h : containsPrivateAttr e = true) :
    ∃ msg, compileSafeExpr (.strExpr e) constants = .error (.safeEvalError msg) := by
  have hbad := private_not_whitelisted e h
  cases hv : validate e with
  | ok u =>
    cases u
    rw [validate_ok_good e hv] at hbad
    cases hbad
  | error m => exact ⟨m, by simp [compileSafeExpr, hv]⟩

theorem private_attr_rejected_witness :
    containsPrivateAttr (.attribute (.name "obj") "_cls") = true ∧
      ∃ msg, compileSafeExpr (.strExpr (.attribute (.name "obj") "_cls")) [] =
        .error (.safeEvalError msg) :=
  ⟨rfl, private_attr_rejected (.attribute (.name "obj") "_cls") [] rfl⟩

/-! ## Claim C5 -/

/-- C5 (counterexample): a subscription expression — `flags[0]` — passes
validation and compiles, because `Subscript` is a member of
`_ALLOWED_NODES`; the claim predicts a `SandboxError` for it. -/
theorem subscript_accepted_counterexample :
    compilesOk (.strExpr (.subscript (.name "flags") (.const (.int 0)))) [] = true := rfl

/-- C5 (amended): the validator's whitelist is exhaustive over the node
whitelist that actually includes `Subscript`: compilation of a formula
fails with a `SafeEvalError` exactly when its tree contains a construct
outside the whitelist (lambdas, comprehensions, conditional expressions,
list/dict displays, bitwise or shift operators, identity/membership
comparisons, `~`, or an underscore-prefixed attribute name); subscription
is accepted. -/
theorem sandbox_whitelist_exhaustive (e : PyExpr) (constants : List (String × PyVal)) :
    whitelistedTree e = false ↔
      ∃ msg, compileSafeExpr (.strExpr e) constants = .error (.safeEvalError msg) := by
  constructor
  · intro h
    cases hv : validate e with
    | ok u =>
      cases u
      rw [validate_ok_good e hv] at h
      cases h
    | error m => exact ⟨m, by simp [compileSafeExpr, hv]⟩
  · rintro ⟨msg, hmsg⟩
    by_contra hgood
    rw [Bool.not_eq_false] at hgood
    simp [compileSafeExpr, validate_ok_of_good e hgood] at hmsg

/-! ## Claim C6 -/

/-- C6 (counterexample): evaluating the compiled formula `bogus` raises
`NameError`, which is not the sandbox's error kind (`SafeEvalError`): the
claim predicts a `SandboxError`-kind failure. -/
theorem unknown_identifier_counterexample :
    evalCompiled (.strExpr (.name "bogus")) [] ⟨1000, []⟩ [] = .error (.nameError "bogus") ∧
      isSandboxErr (.nameError "bogus") = false := ⟨rfl, rfl⟩

/-- C6 (amended): a name resolved by none of the environment layers
(flags, gross, prior results, the constants table, the fixed
`true`/`false`/`null`, the function whitelist) raises `NameError` when
the compiled formula evaluates it — it never silently defaults — and
`NameError` is distinct from the sandbox's own `SafeEvalError` kind. -/
theorem unresolved_name_raises_nameError (n : String) (constants : List (String × PyVal))
    (ctx : Ctx) (results : Breakdown)
    (h : buildEnv constants results ctx n = Option.none) :
    evalCompiled (.strExpr (.name n)) constants ctx results = .error (.nameError n) ∧
      isSandboxErr (.nameError n) = false := by
  refine ⟨?_, rfl⟩
  show evalExpr (buildEnv constants results ctx) (.name n) = .error (.nameError n)
  simp only [evalExpr, h]

theorem unresolved_name_raises_nameError_witness :
    buildEnv [] [] ⟨250, []⟩ "unknown_flag" = Option.none ∧
      (evalCompiled (.strExpr (.name "unknown_flag")) [] ⟨250, []⟩ [] =
          .error (.nameError "unknown_flag") ∧
        isSandboxErr (.nameError "unknown_flag") = false) :=
  ⟨rfl, unresolved_name_raises_nameError "unknown_flag" [] ⟨250, []⟩ [] rfl⟩

end Payroll
